import Mathlib

/-!
Verification of the path-semantics proof calculus (the `prop` repository).

The development has three layers, matching how the claims talk about the
code:

* a syntactic layer (`PExpr`, `POrdRel`, `ThreeRules`, `Reachable`,
  `POrdProofV`) modelling which `POrdProof<T, U>` values the public API of
  `src/path_semantics.rs` can mint, and the value-level operations on them;
* a proof-value layer over `Type` (`EqT`, `PSem`, `comp`, `to_pand_fst`,
  `to_pand_snd`, `pand_join`, the De Morgan tactics of `src/and.rs`) in
  which proofs are data, so that "equal results on every argument" is a
  real equation between closures;
* a propositional layer (`EqP`, `CompP`, `Norm1`, `involve_eq`,
  `qu_to_app_eq`, the function-extensionality laws) for `src/fun.rs`,
  whose primitive laws are trusted axioms (`unimplemented!()` bodies in
  the source); those primitives, and the formers of the absent `hooo`,
  `quality` and `qubit` modules, are taken as explicit hypotheses, and the
  derived combinators are transcribed from the source on top of them.
-/

/-! ## Syntax of proposition formers (path-order layer) -/

/-- Expressions built from the proposition formers that carry path-semantical
order instances in `src/path_semantics.rs`: `True`, `False`, variables
(generic parameters), `And`, `Or`, `Imply` and `POrdProof` itself. -/
inductive PExpr where
  | tru : PExpr
  | fls : PExpr
  | var : Nat → PExpr
  | and : PExpr → PExpr → PExpr
  | or : PExpr → PExpr → PExpr
  | imp : PExpr → PExpr → PExpr
  | pord : PExpr → PExpr → PExpr
deriving DecidableEq

/-- The `POrd` trait instances of `src/path_semantics.rs` lines 92-110: a
`PBinOrd` compound (`And`, `Or`, `Imply`, `POrdProof`) is `POrd` over its
left and its right operand, and `True` is `POrd` over `False`. -/
inductive POrdRel : PExpr → PExpr → Prop where
  | andLeft (a b : PExpr) : POrdRel (.and a b) a
  | andRight (a b : PExpr) : POrdRel (.and a b) b
  | orLeft (a b : PExpr) : POrdRel (.or a b) a
  | orRight (a b : PExpr) : POrdRel (.or a b) b
  | impLeft (a b : PExpr) : POrdRel (.imp a b) a
  | impRight (a b : PExpr) : POrdRel (.imp a b) b
  | pordLeft (a b : PExpr) : POrdRel (.pord a b) a
  | pordRight (a b : PExpr) : POrdRel (.pord a b) b
  | trueFalse : POrdRel .tru .fls

/-- Truth-value semantics of a former expression under an assignment of the
variables; a `POrdProof` proposition is always inhabited in the code (its
`Decidable` instance returns a proof), so it denotes `True`. -/
def denote (σ : Nat → Prop) : PExpr → Prop
  | .tru => True
  | .fls => False
  | .var n => σ n
  | .and a b => denote σ a ∧ denote σ b
  | .or a b => denote σ a ∨ denote σ b
  | .imp a b => denote σ a → denote σ b
  | .pord _ _ => True

/-- A biconditional proof `Eq<T, U>` available at every instantiation of the
generic parameters: what a caller of `by_eq_left` / `by_eq_right` must be
able to supply polymorphically. -/
def TautoEq (t u : PExpr) : Prop :=
  ∀ σ : Nat → Prop, denote σ t ↔ denote σ u

/-- Closure of the three introduction rules the spec names for
`POrdProof<T, U>`: (a) the structural `POrd`/`PBinOrd` instances (via
`POrdProof::new`), (b) `True` over `False` (also a `POrd` instance), and
(c) `transitivity` and the equality transports `by_eq_left` /
`by_eq_right`, with the result indices exactly as in the source. -/
inductive ThreeRules : PExpr → PExpr → Prop where
  | new (t u : PExpr) : POrdRel t u → ThreeRules t u
  | transitivity (t u v : PExpr) :
      ThreeRules t u → ThreeRules u v → ThreeRules t v
  | by_eq_left (t u v : PExpr) :
      ThreeRules t u → TautoEq t v → ThreeRules t v
  | by_eq_right (t u v : PExpr) :
      ThreeRules t u → TautoEq u v → ThreeRules t u

/-- Every way the public surface of `src/path_semantics.rs` can produce a
`POrdProof<T, U>` value: the three rules above, plus the `Decidable`
instance (lines 47-51), whose `decide()` returns
`Left(POrdProof(PhantomData))` unconditionally for every pair of
(`'static`) types. `clone` and `default` add no new pairs. -/
inductive Reachable : PExpr → PExpr → Prop where
  | new (t u : PExpr) : POrdRel t u → Reachable t u
  | transitivity (t u v : PExpr) :
      Reachable t u → Reachable u v → Reachable t v
  | by_eq_left (t u v : PExpr) :
      Reachable t u → TautoEq t v → Reachable t v
  | by_eq_right (t u v : PExpr) :
      Reachable t u → TautoEq u v → Reachable t u
  | decide (t u : PExpr) : Reachable t u

/-- Does an expression have the shape required of the left index of any
proof derivable by the three rules: a binary compound or `True`? -/
def leftOk : PExpr → Bool
  | .tru => true
  | .and _ _ => true
  | .or _ _ => true
  | .imp _ _ => true
  | .pord _ _ => true
  | .fls => false
  | .var _ => false

/-! ## Value-level model of `POrdProof` (phantom data) -/

/-- The value `POrdProof<T, U>(PhantomData)` of `src/path_semantics.rs`
line 33: a structure with no data, indexed by the two former expressions. -/
structure POrdProofV (t u : PExpr) : Type where
  mk ::

/-- The `Clone` impl (lines 41-45): it ignores `self` and returns a fresh
`POrdProof(PhantomData)`. -/
def cloneV {t u : PExpr} (_p : POrdProofV t u) : POrdProofV t u :=
  POrdProofV.mk

/-- `POrdProof::new` (lines 54-57): requires the `POrd` trait bound and
returns `Self::default()`, i.e. `POrdProof(PhantomData)`. -/
def newV {t u : PExpr} (_h : POrdRel t u) : POrdProofV t u :=
  POrdProofV.mk

/-- `POrdProof::transitivity` (lines 59-62): ignores both proofs and
returns `POrdProof(PhantomData)` at the composed index. -/
def transitivityV {t u v : PExpr} (_p : POrdProofV t u) (_q : POrdProofV u v) :
    POrdProofV t v :=
  POrdProofV.mk

/-- `POrdProof::by_eq_left` (lines 64-67): consumes `self : POrdProof<T, U>`
and an `Eq<T, V>` and returns `POrdProof(PhantomData)` at index `(T, V)`. -/
def byEqLeftV {t u v : PExpr} (_p : POrdProofV t u) (_e : TautoEq t v) :
    POrdProofV t v :=
  POrdProofV.mk

/-- `POrdProof::by_eq_right` (lines 69-72): consumes `self : POrdProof<T, U>`
and an `Eq<U, V>`, and — exactly as the source is written — returns
`POrdProof(PhantomData)` at the unchanged index `(T, U)`. -/
def byEqRightV {t u v : PExpr} (_p : POrdProofV t u) (_e : TautoEq u v) :
    POrdProofV t u :=
  POrdProofV.mk

/-- The `Decidable` impl (lines 47-51): `decide()` returns
`Left(POrdProof(PhantomData))`, a proof rather than a refutation, for every
pair of indices. -/
def decideV (t u : PExpr) : POrdProofV t u ⊕ (POrdProofV t u → Empty) :=
  Sum.inl POrdProofV.mk

/-! ## Proof-value layer: `PSem`, `comp` and the `PAnd` projections

Propositions are `Type`s and proof values are data, matching the Rust
encoding: `And<A, B>` is the pair type, `Imply<A, B>` a function, and
`Eq<A, B>` a pair of functions.  `POrdProof` is a phantom structure with
no fields, as in the source. -/

/-- Phantom order proof between two proposition types, the `Type`-level
counterpart of `POrdProof<T, U>`. -/
structure POrdProofT (T U : Type) : Type where
  mk ::

instance (T U : Type) : DecidableEq (POrdProofT T U) :=
  fun a b => by cases a; cases b; exact isTrue rfl

instance (T U : Type) : Fintype (POrdProofT T U) where
  elems := {POrdProofT.mk}
  complete := by intro x; cases x; exact Finset.mem_singleton_self _

/-- `Eq<A, B>`: a biconditional pair of implications, as in the crate root
(`Eq<A, B> = And<Imply<A, B>, Imply<B, A>>`). -/
abbrev EqT (A B : Type) : Type := (A → B) × (B → A)

/-- The core axiom type `PSem<F1, F2, X1, X2>` of `src/path_semantics.rs`
lines 14-18. -/
abbrev PSem (F1 F2 X1 X2 : Type) : Type :=
  (EqT F1 F2 × POrdProofT F1 X1) × ((F1 → X1) × (F2 → X2)) → EqT X1 X2

/-- `PAndFst<A, B, C, D>` (lines 21-24). -/
abbrev PAndFst (A B C D : Type) : Type :=
  EqT (A × B) C × (C → D) → EqT A D

/-- `PAndSnd<A, B, C, D>` (lines 26-29). -/
abbrev PAndSnd (A B C D : Type) : Type :=
  EqT (A × B) C × (C → D) → EqT B D

/-- Composition of core-axiom instances, `comp` (lines 113-128): the result
closure destructures its argument, keeps only the `Eq<F1, F2>` component,
runs `f` with the captured order proof and implications, and feeds the
resulting `Eq<F3, F4>` to `g`. -/
def comp {F1 F2 F3 F4 X1 X2 : Type}
    (f : PSem F1 F2 F3 F4) (g : PSem F3 F4 X1 X2)
    (pr_f1_f3 : POrdProofT F1 F3) (pr_f3_x1 : POrdProofT F3 X1)
    (f1_f3 : F1 → F3) (f2_f4 : F2 → F4)
    (f3_x1 : F3 → X1) (f4_x2 : F4 → X2) : PSem F1 F2 X1 X2 :=
  fun x =>
    g ((f ((x.1.1, pr_f1_f3), (f1_f3, f2_f4)), pr_f3_x1), (f3_x1, f4_x2))

/-- `to_pand_fst` (lines 131-137): applies the core axiom at the canonical
structural order proof `POrdProof<And<A, B>, A>` and the first projection. -/
def to_pand_fst {A B C D : Type} (p : PSem (A × B) C A D) : PAndFst A B C D :=
  fun fg => p ((fg.1, POrdProofT.mk), (fun ab => ab.1, fg.2))

/-- `to_pand_snd` (lines 140-146): same with the second projection. -/
def to_pand_snd {A B C D : Type} (p : PSem (A × B) C B D) : PAndSnd A B C D :=
  fun fg => p ((fg.1, POrdProofT.mk), (fun ab => ab.2, fg.2))

/-- `pand_join` (lines 149-161): rebuilds a core-axiom instance on
`And<A, B>` from the two conjunction-specialised forms; the output
equality's forward map sends `(a, b)` through `p1`'s forward map on `a`,
and its backward map pairs `p1`'s and `p2`'s backward maps. -/
def pand_join {A B C D : Type}
    (p1 : PAndFst A B C D) (p2 : PAndSnd A B C D) :
    PSem (A × B) C (A × B) D :=
  fun x =>
    let eq_a_d := p1 (x.1.1, x.2.2)
    let eq_b_d := p2 (x.1.1, x.2.2)
    (fun ab => eq_a_d.1 ab.1, fun d => (eq_a_d.2 d, eq_b_d.2 d))

/-! ## Proof-value layer: the De Morgan tactics of `src/and.rs` -/

/-- `Not<A> = Imply<A, False>` with `False` the empty type. -/
abbrev NotT (A : Type) : Type := A → Empty

/-- `to_de_morgan` (lines 75-80 of `src/and.rs`): a closure capturing both
negations and case-splitting on the disjunction tag. -/
def to_de_morgan {A B : Type} (p : NotT A × NotT B) : NotT (A ⊕ B) :=
  fun or_ab =>
    match or_ab with
    | Sum.inl a => (p.1 a).elim
    | Sum.inr b => (p.2 b).elim

/-- `from_de_morgan` (lines 83-89 of `src/and.rs`): two closures sharing the
captured refutation of the disjunction. -/
def from_de_morgan {A B : Type} (f : NotT (A ⊕ B)) : NotT A × NotT B :=
  (fun a => f (Sum.inl a), fun b => f (Sum.inr b))

/-! ## Propositional layer for `src/fun.rs`

Here propositions are `Prop` (the spec's data model makes proofs
duplicable, proof-irrelevant assertions).  The formers whose values the
source only ever obtains from trusted axioms (`App`, `Inv`, the absent
`hooo` module's `Pow`, the absent `qubit` module's `Qu`, …) are opaque
parameters, and each `unimplemented!()` primitive a derivation uses is an
explicit hypothesis; `Comp`, whose fields the source code does read
(`comp_in_left_arg`, `comp_in_right_arg`), is the concrete two-field
structure it is in the source. -/

/-- `Eq<A, B>`: a pair of implications (biconditional). -/
abbrev EqP (A B : Prop) : Prop := (A → B) ∧ (B → A)

/-- `eq::transitivity` of `src/eq.rs` lines 6-8. -/
def eq_transitivity {A B C : Prop} (x : EqP A B) (y : EqP B C) : EqP A C :=
  ⟨fun a => y.1 (x.1 a), fun c => x.2 (y.2 c)⟩

/-- `eq::commute` of `src/eq.rs` lines 17-19, which `src/fun.rs` calls as
`eq::symmetry`. -/
def eq_symmetry {A B : Prop} (x : EqP A B) : EqP B A :=
  ⟨x.2, x.1⟩

/-- Modelled from the spec: `eq::in_left_arg`, used by `qu_to_app_eq` but
absent from the staged `src/eq.rs`; per the spec's Eq tactics (transitivity,
symmetry) it replaces the left side of an equality by an equal one. -/
def eq_in_left_arg {A B C : Prop} (x : EqP A B) (y : EqP A C) : EqP C B :=
  eq_transitivity (eq_symmetry y) x

/-- `Comp<F, G>` of `src/fun.rs` line 254: a structure holding its two
constituents. -/
structure CompP (A B : Prop) : Prop where
  fst : A
  snd : B

/-- `comp_in_left_arg` (lines 299-301): rebuild the composition with the
first field transported along the equality. -/
def comp_in_left_arg {F G H : Prop} (x : CompP G F) (y : EqP G H) : CompP H F :=
  ⟨y.1 x.fst, x.snd⟩

/-- `comp_in_right_arg` (lines 303-305). -/
def comp_in_right_arg {F G H : Prop} (x : CompP G F) (y : EqP F H) : CompP G H :=
  ⟨x.fst, y.1 x.snd⟩

/-- `comp_eq_left` (lines 307-311). -/
def comp_eq_left {F G H : Prop} (x : EqP F H) : EqP (CompP F G) (CompP H G) :=
  ⟨fun fg => comp_in_left_arg fg x, fun hg => comp_in_left_arg hg (eq_symmetry x)⟩

/-- `comp_eq_right` (lines 313-317). -/
def comp_eq_right {F G H : Prop} (x : EqP G H) : EqP (CompP F G) (CompP F H) :=
  ⟨fun fg => comp_in_right_arg fg x, fun fh => comp_in_right_arg fh (eq_symmetry x)⟩

/-- `comp_inv` (lines 291-293), pairing the two trusted contravariance
axioms; `hooo::pow_to_imply` (absent module) is modelled from the spec as
the coercion of a tautological function into an implication. -/
def comp_inv (Inv : Prop → Prop)
    (comp_inv_to_inv_comp : ∀ F G : Prop, CompP (Inv F) (Inv G) → Inv (CompP G F))
    (inv_comp_to_comp_inv : ∀ F G : Prop, Inv (CompP G F) → CompP (Inv F) (Inv G))
    (F G : Prop) : EqP (CompP (Inv F) (Inv G)) (Inv (CompP G F)) :=
  ⟨comp_inv_to_inv_comp F G, inv_comp_to_comp_inv F G⟩

/-- `Norm1<F, G1, G2> = Comp<Comp<G2, F>, Inv<G1>>` (line 712). -/
abbrev Norm1 (Inv : Prop → Prop) (F G1 G2 : Prop) : Prop :=
  CompP (CompP G2 F) (Inv G1)

/-- `SymNorm1<F, G> = Norm1<F, G, G>` (line 714). -/
abbrev SymNorm1 (Inv : Prop → Prop) (F G : Prop) : Prop :=
  Norm1 Inv F G G

/-- `norm1_comp` (lines 722-728), transcribed term for term: reassociate,
turn `Comp<Inv<G1>, Inv<G3>>` into `Inv<Comp<G3, G1>>`, reassociate. -/
def norm1_comp (Inv : Prop → Prop)
    (comp_assoc : ∀ F G H : Prop, EqP (CompP H (CompP G F)) (CompP (CompP H G) F))
    (comp_inv_to_inv_comp : ∀ F G : Prop, CompP (Inv F) (Inv G) → Inv (CompP G F))
    (inv_comp_to_comp_inv : ∀ F G : Prop, Inv (CompP G F) → CompP (Inv F) (Inv G))
    (F G1 G2 G3 G4 : Prop) :
    EqP (Norm1 Inv (Norm1 Inv F G1 G2) G3 G4)
      (Norm1 Inv F (CompP G3 G1) (CompP G4 G2)) :=
  let y := eq_transitivity
    (comp_eq_left (comp_assoc (Inv G1) (CompP G2 F) G4))
    (eq_symmetry (comp_assoc (Inv G3) (Inv G1) (CompP G4 (CompP G2 F))))
  eq_transitivity
    (eq_transitivity y
      (comp_eq_right (comp_inv Inv comp_inv_to_inv_comp inv_comp_to_comp_inv G1 G3)))
    (comp_eq_left (comp_assoc F G2 G4))

/-- `sym_norm1_comp` (lines 730-732): the `norm1_comp` instance at equal
coordinate maps. -/
def sym_norm1_comp (Inv : Prop → Prop)
    (comp_assoc : ∀ F G H : Prop, EqP (CompP H (CompP G F)) (CompP (CompP H G) F))
    (comp_inv_to_inv_comp : ∀ F G : Prop, CompP (Inv F) (Inv G) → Inv (CompP G F))
    (inv_comp_to_comp_inv : ∀ F G : Prop, Inv (CompP G F) → CompP (Inv F) (Inv G))
    (F G1 G2 : Prop) :
    EqP (SymNorm1 Inv (SymNorm1 Inv F G1) G2)
      (SymNorm1 Inv F (CompP G2 G1)) :=
  norm1_comp Inv comp_assoc comp_inv_to_inv_comp inv_comp_to_comp_inv F G1 G1 G2 G2

/-- `involve_eq` (lines 248-250): the two involution directions unified into
one equality; `hooo::pow_eq_to_tauto_eq` applied at `True` (the absent
tautological-equality bridge) is modelled from the spec as pairing the two
tautological implications. -/
def involve_eq (Inv : Prop → Prop)
    (inv_involve : ∀ F : Prop, Inv (Inv F) → F)
    (involve_inv : ∀ F : Prop, F → Inv (Inv F))
    (F : Prop) : EqP (Inv (Inv F)) F :=
  ⟨inv_involve F, involve_inv F⟩

/-- `qu_to_app_eq` (lines 118-126): given `~inv(f)`, the input/output
equation for `f` and the one for `inv(f)` are interconvertible; the forward
direction is `inv_val_qu`, the backward one runs `inv_val_qu` at `inv(f)`
(whose quality witness comes from `inv_qu`) and transports the result along
`inv(inv(f)) == f`. -/
def qu_to_app_eq (App : Prop → Prop → Prop) (Inv : Prop → Prop) (Qu : Prop → Prop)
    (inv_val_qu : ∀ F A B : Prop, Qu (Inv F) → EqP (App F A) B → EqP (App (Inv F) B) A)
    (inv_qu : ∀ F : Prop, Qu F → Qu (Inv F))
    (app_map_eq : ∀ F G X : Prop, EqP F G → EqP (App F X) (App G X))
    (inv_involve : ∀ F : Prop, Inv (Inv F) → F)
    (involve_inv : ∀ F : Prop, F → Inv (Inv F))
    (F A B : Prop) (x : Qu (Inv F)) :
    EqP (EqP (App F A) B) (EqP (App (Inv F) B) A) :=
  ⟨fun y => inv_val_qu F A B x y,
   fun y =>
     eq_in_left_arg
       (inv_val_qu (Inv F) B A (inv_qu (Inv F) x) y)
       (app_map_eq (Inv (Inv F)) F A (involve_eq Inv inv_involve involve_inv F))⟩

/-! ### Function extensionality (`FunExtTy` and its equivalence laws) -/

section FunExt

variable (Pow App Tup Lam : Prop → Prop → Prop) (Snd : Prop)
variable (POrdP : Prop → Prop → Prop)

/-- `Ty<A, B> = And<Imply<A, B>, POrdProof<A, B>>`: the type judgement of
the `path_semantics` module, reconstructed from its use in
`src/fun.rs` lines 76-78 (`ty_is_const` splits it into exactly these two
components). -/
def Ty (A B : Prop) : Prop := (A → B) ∧ POrdP A B

/-- `Tup3<A, B, C> = Tup<A, Tup<B, C>>` (line 436). -/
def Tup3 (A B C : Prop) : Prop := Tup A (Tup B C)

/-- `Tauto<A> = Pow<A, True>`: the absent `hooo` module's tautological
proposition, modelled from the spec's tautological-equality capability. -/
def TautoP (A : Prop) : Prop := Pow A True

/-- `FunExtAppEq<F, G, A, X>` (line 789). -/
def FunExtAppEq (F G A X : Prop) : Prop :=
  CompP (Lam (Ty POrdP A X) (EqP (App F A) (App G A))) (CompP Snd Snd)

/-- `FunExtTy<F, G, X, Y, A>` (lines 794-797), unfolding
`DepFunTy<A', X', P> = Pow<App<P, A'>, Ty<A', X'>>` (line 655). -/
def FunExtTy (F G X Y A : Prop) : Prop :=
  Pow (App (FunExtAppEq App Lam Snd POrdP F G A X) (Tup3 Tup F G A))
    (Ty POrdP (Tup3 Tup F G A) (Tup3 Tup (Pow Y X) (Pow Y X) X))

/-- `fun_ext_refl` (lines 865-867): the composition, through
`hooo::pow_transitivity`, of `tup3_trd` with `fun_ext_app_eq_refl`; the two
composed tautological functions are the source's, taken as hypotheses since
their own derivations run through the absent `hooo` machinery. -/
def fun_ext_refl
    (pow_transitivity : ∀ A B C : Prop, Pow B A → Pow C B → Pow C A)
    (tup3_trd : ∀ F G A X Y : Prop,
      Pow (Ty POrdP A X)
        (Ty POrdP (Tup3 Tup F G A) (Tup3 Tup (Pow Y X) (Pow Y X) X)))
    (fun_ext_app_eq_refl : ∀ F A X : Prop,
      Pow (App (FunExtAppEq App Lam Snd POrdP F F A X) (Tup3 Tup F F A))
        (Ty POrdP A X))
    (F X Y A : Prop) : FunExtTy Pow App Tup Lam Snd POrdP F F X Y A :=
  pow_transitivity _ _ _ (tup3_trd F F A X Y) (fun_ext_app_eq_refl F A X)

/-- `fun_ext_symmetry` (lines 869-871): reverse the tautological equality
obtained from `fun_rev_ext` and rebuild with `fun_ext`. -/
def fun_ext_symmetry
    (fun_ext : ∀ F G X Y A : Prop,
      TautoP Pow (EqP F G) → FunExtTy Pow App Tup Lam Snd POrdP F G X Y A)
    (fun_rev_ext : ∀ F G X Y A : Prop,
      FunExtTy Pow App Tup Lam Snd POrdP F G X Y A → TautoP Pow (EqP F G))
    (tauto_eq_symmetry : ∀ F G : Prop,
      TautoP Pow (EqP F G) → TautoP Pow (EqP G F))
    (F G X Y A : Prop)
    (x : FunExtTy Pow App Tup Lam Snd POrdP F G X Y A) :
    FunExtTy Pow App Tup Lam Snd POrdP G F X Y A :=
  fun_ext G F X Y A (tauto_eq_symmetry F G (fun_rev_ext F G X Y A x))

/-- `fun_ext_transitivity` (lines 873-880): chain the two tautological
equalities obtained from `fun_rev_ext` and rebuild with `fun_ext`. -/
def fun_ext_transitivity
    (fun_ext : ∀ F G X Y A : Prop,
      TautoP Pow (EqP F G) → FunExtTy Pow App Tup Lam Snd POrdP F G X Y A)
    (fun_rev_ext : ∀ F G X Y A : Prop,
      FunExtTy Pow App Tup Lam Snd POrdP F G X Y A → TautoP Pow (EqP F G))
    (tauto_eq_transitivity : ∀ F G H : Prop,
      TautoP Pow (EqP F G) → TautoP Pow (EqP G H) → TautoP Pow (EqP F H))
    (F G H X Y A : Prop)
    (x : FunExtTy Pow App Tup Lam Snd POrdP F G X Y A)
    (y : FunExtTy Pow App Tup Lam Snd POrdP G H X Y A) :
    FunExtTy Pow App Tup Lam Snd POrdP F H X Y A :=
  fun_ext F H X Y A
    (tauto_eq_transitivity F G H (fun_rev_ext F G X Y A x) (fun_rev_ext G H X Y A y))

end FunExt

/-! ### Concrete interpretations used by the witnesses -/

/-- Interpretation sending every former to `True`. -/
def trueF2 : Prop → Prop → Prop := fun _ _ => True

/-- Unary interpretation sending everything to `True`. -/
def trueF1 : Prop → Prop := fun _ => True

/-- Identity interpretation of a unary former. -/
def idF1 : Prop → Prop := fun F => F

/-- Interpretation of application that returns its argument. -/
def appArg : Prop → Prop → Prop := fun _ X => X

/-- Interpretation sending every former to `False`. -/
def falseF2 : Prop → Prop → Prop := fun _ _ => False

/-! ## Theorems -/

/-- Every derivation by the three spec rules has a binary compound or
`True` as its left index: `new` starts from a structural `POrd` instance,
and transitivity and both equality transports keep the left index. -/
theorem threeRules_leftOk {t u : PExpr} (h : ThreeRules t u) : leftOk t = true := by
  induction h with
  | new t u h => cases h <;> rfl
  | transitivity t u v h1 h2 ih1 ih2 => exact ih1
  | by_eq_left t u v h1 e ih => exact ih
  | by_eq_right t u v h1 e ih => exact ih

/-- C1 counterexample: the pair `(False, True)` — the reverse of the
conventional `True > False` — is reachable on the public surface, through
the `Decidable` instance's unconditional `decide`, yet it is not derivable
by the three introduction rules the claim allows. -/
theorem pord_decide_outside_three_rules :
    Reachable .fls .tru ∧ ¬ ThreeRules .fls .tru :=
  ⟨Reachable.decide _ _,
   fun h => absurd (threeRules_leftOk h) (by decide)⟩

/-- C1 amended: besides the three rules, the `Decidable` impl for
`POrdProof` mints a proof unconditionally, so every pair of former
expressions carries a reachable order proof. -/
theorem pord_public_surface_reaches_every_pair :
    ∀ t u : PExpr, Reachable t u :=
  fun t u => Reachable.decide t u

/-- Tautological equality between `And<True, True>` and `True`. -/
theorem tautoEq_and_tt_tru : TautoEq (.and .tru .tru) .tru :=
  fun _ => by simp [denote]

/-- Tautological equality between `True` and `Imply<True, True>`. -/
theorem tautoEq_tru_imp : TautoEq .tru (.imp .tru .tru) :=
  fun _ => by simp [denote]

/-- Tautological reflexivity at `True`. -/
theorem tautoEq_tru_refl : TautoEq .tru .tru :=
  fun _ => Iff.rfl

/-- C9: `by_eq_left` does transport its result to the pair `(T, V)` given
`Eq<T, V>`, but `by_eq_right`, despite its doc comment "Transform right
argument by equivalence", returns its input `POrdProof<T, U>` unchanged:
its result stays at the untransported pair `(T, U)` instead of the
documented `(T, V)`. -/
theorem by_eq_right_returns_input_unchanged :
    ∀ (t u v1 v2 : PExpr) (p : POrdProofV t u)
      (e1 : TautoEq t v1) (e2 : TautoEq u v2),
      byEqLeftV p e1 = (POrdProofV.mk : POrdProofV t v1) ∧
      byEqRightV p e2 = p := by
  intro t u v1 v2 p e1 e2
  cases p
  exact ⟨rfl, rfl⟩

/-- C9 witness: the transports evaluated at `T = And<True, True>`,
`U = True`, with `Eq<T, True>` and `Eq<U, Imply<True, True>>`. -/
theorem by_eq_right_returns_input_unchanged_witness :
    byEqLeftV (POrdProofV.mk : POrdProofV (.and .tru .tru) .tru) tautoEq_and_tt_tru
        = (POrdProofV.mk : POrdProofV (.and .tru .tru) .tru) ∧
      byEqRightV (POrdProofV.mk : POrdProofV (.and .tru .tru) .tru) tautoEq_tru_imp
        = (POrdProofV.mk : POrdProofV (.and .tru .tru) .tru) :=
  by_eq_right_returns_input_unchanged (.and .tru .tru) .tru .tru (.imp .tru .tru)
    POrdProofV.mk tautoEq_and_tt_tru tautoEq_tru_imp

/-- C10: an order proof carries no data; any two `POrdProof<T, U>` values
are equal, and `clone`, `new`, `transitivity`, `by_eq_left`, `by_eq_right`
and `decide` all return the canonical phantom value whatever their
inputs. -/
theorem pord_proof_canonical_irrelevance :
    ∀ (t u v : PExpr) (p q : POrdProofV t u) (r : POrdProofV u v)
      (h : POrdRel t u) (e1 : TautoEq t v) (e2 : TautoEq u v),
      p = q ∧ cloneV p = q ∧ newV h = p ∧
      transitivityV p r = POrdProofV.mk ∧
      byEqLeftV p e1 = byEqLeftV q e1 ∧ byEqRightV p e2 = q ∧
      decideV t u = Sum.inl p := by
  intro t u v p q r h e1 e2
  cases p; cases q
  exact ⟨rfl, rfl, rfl, rfl, rfl, rfl, rfl⟩

/-- C10 witness: the canonical-value equations evaluated at
`T = And<True, True>`, `U = V = True`, with the structural rule as the
`new` constraint. -/
theorem pord_proof_canonical_irrelevance_witness :
    POrdRel (.and .tru .tru) .tru ∧
      ((POrdProofV.mk : POrdProofV (.and .tru .tru) .tru) = POrdProofV.mk ∧
        cloneV (POrdProofV.mk : POrdProofV (.and .tru .tru) .tru) = POrdProofV.mk ∧
        newV (POrdRel.andLeft .tru .tru)
          = (POrdProofV.mk : POrdProofV (.and .tru .tru) .tru) ∧
        transitivityV (POrdProofV.mk : POrdProofV (.and .tru .tru) .tru)
          (POrdProofV.mk : POrdProofV .tru .tru) = POrdProofV.mk ∧
        byEqLeftV (POrdProofV.mk : POrdProofV (.and .tru .tru) .tru) tautoEq_and_tt_tru
          = byEqLeftV (POrdProofV.mk : POrdProofV (.and .tru .tru) .tru) tautoEq_and_tt_tru ∧
        byEqRightV (POrdProofV.mk : POrdProofV (.and .tru .tru) .tru) tautoEq_tru_refl
          = POrdProofV.mk ∧
        decideV (.and .tru .tru) .tru = Sum.inl POrdProofV.mk) :=
  ⟨POrdRel.andLeft .tru .tru,
   pord_proof_canonical_irrelevance (.and .tru .tru) .tru .tru
     POrdProofV.mk POrdProofV.mk POrdProofV.mk
     (POrdRel.andLeft .tru .tru) tautoEq_and_tt_tru tautoEq_tru_refl⟩

/-- A phantom order proof has exactly one value. -/
theorem card_pordProofT (T U : Type) : Fintype.card (POrdProofT T U) = 1 :=
  rfl

/-- C2: composing three core-axiom instances the two ways yields closures
that agree on every argument, whichever order proofs each side is handed
(each is phantom) and with the implications each side needs drawn from one
shared pool. -/
theorem psem_comp_associative :
    ∀ (F1 F2 F3 F4 G1 G2 X1 X2 : Type)
      (p : PSem F1 F2 F3 F4) (q : PSem F3 F4 G1 G2) (r : PSem G1 G2 X1 X2)
      (a1 : POrdProofT F1 F3) (a2 : POrdProofT F3 G1) (a3 : POrdProofT F1 G1)
      (a4 : POrdProofT G1 X1) (b1 : POrdProofT F1 F3) (b2 : POrdProofT F3 G1)
      (b4 : POrdProofT G1 X1) (b5 : POrdProofT F3 X1)
      (f1f3 : F1 → F3) (f2f4 : F2 → F4) (f3g1 : F3 → G1) (f4g2 : F4 → G2)
      (g1x1 : G1 → X1) (g2x2 : G2 → X2) (f1g1 : F1 → G1) (f2g2 : F2 → G2)
      (f3x1 : F3 → X1) (f4x2 : F4 → X2)
      (x : (EqT F1 F2 × POrdProofT F1 X1) × ((F1 → X1) × (F2 → X2))),
      comp (comp p q a1 a2 f1f3 f2f4 f3g1 f4g2) r a3 a4 f1g1 f2g2 g1x1 g2x2 x
        = comp p (comp q r b2 b4 f3g1 f4g2 g1x1 g2x2) b1 b5 f1f3 f2f4 f3x1 f4x2 x := by
  intro F1 F2 F3 F4 G1 G2 X1 X2 p q r a1 a2 a3 a4 b1 b2 b4 b5
    f1f3 f2f4 f3g1 f4g2 g1x1 g2x2 f1g1 f2g2 f3x1 f4x2 x
  cases a1; cases a2; cases a3; cases a4; cases b1; cases b2; cases b4; cases b5
  rfl

set_option synthInstance.maxSize 4096
set_option synthInstance.maxHeartbeats 1000000
set_option maxHeartbeats 4000000
set_option maxRecDepth 16384

/-- C3 counterexample: the claimed round trip is not even well typed — at
`A = B = Bool`, `C = D = PUnit` the type `pand_join` produces
(`PSem<And<A,B>, C, And<A,B>, D>`) and the type `to_pand_fst` consumes
(`PSem<And<A,B>, C, A, D>`) are provably different types (they have
different cardinalities), so no `p` can be projected and then compared
with the rejoined instance. -/
theorem pand_projection_join_types_disagree :
    PSem (Bool × Bool) PUnit (Bool × Bool) PUnit
      ≠ PSem (Bool × Bool) PUnit Bool PUnit := by
  intro h
  have hcard :
      Fintype.card (PSem (Bool × Bool) PUnit (Bool × Bool) PUnit)
        = Fintype.card (PSem (Bool × Bool) PUnit Bool PUnit) :=
    Fintype.card_congr' h
  rw [show Fintype.card (PSem (Bool × Bool) PUnit (Bool × Bool) PUnit)
        = 2 ^ 2048 by
      simp only [Fintype.card_fun, Fintype.card_prod, card_pordProofT,
        Fintype.card_bool, Fintype.card_punit]
      norm_num [pow_mul],
    show Fintype.card (PSem (Bool × Bool) PUnit Bool PUnit) = 2 ^ 64 by
      simp only [Fintype.card_fun, Fintype.card_prod, card_pordProofT,
        Fintype.card_bool, Fintype.card_punit]
      norm_num] at hcard
  exact absurd (Nat.pow_right_injective (le_refl 2) hcard) (by decide)

/-- C3 amended: `pand_join`'s output is pointwise assembled from its two
inputs' outputs — forward map through `p1` on the first component,
backward map pairing `p1`'s and `p2`'s backward maps — and each
projection evaluates its input core axiom at the canonical structural
order proof and tuple projection; the composite round trip itself is
untypable. -/
theorem pand_join_pointwise_determined :
    ∀ (A B C D : Type) (p1 : PAndFst A B C D) (p2 : PAndSnd A B C D)
      (f : EqT (A × B) C) (pr : POrdProofT (A × B) (A × B))
      (i : A × B → A × B) (g : C → D)
      (p : PSem (A × B) C A D) (p' : PSem (A × B) C B D),
      pand_join p1 p2 ((f, pr), (i, g))
          = (fun ab => (p1 (f, g)).1 ab.1,
             fun d => ((p1 (f, g)).2 d, (p2 (f, g)).2 d)) ∧
        to_pand_fst p (f, g) = p ((f, POrdProofT.mk), (fun ab => ab.1, g)) ∧
        to_pand_snd p' (f, g) = p' ((f, POrdProofT.mk), (fun ab => ab.2, g)) := by
  intro A B C D p1 p2 f pr i g p p'
  exact ⟨rfl, rfl, rfl⟩

/-- C8: with no decidability hypothesis anywhere, the De Morgan round trip
reproduces both components of the conjunction of negations pointwise. -/
theorem de_morgan_round_trip_pointwise :
    ∀ (A B : Type) (p : NotT A × NotT B),
      (∀ a : A, (from_de_morgan (to_de_morgan p)).1 a = p.1 a) ∧
      (∀ b : B, (from_de_morgan (to_de_morgan p)).2 b = p.2 b) := by
  intro A B p
  exact ⟨fun a => (p.1 a).elim, fun b => (p.2 b).elim⟩

/-- C4: in every interpretation of the formers validating the trusted
primitives `inv_val_qu`, `inv_qu`, `app_map_eq`, `inv_involve` and
`involve_inv`, a quality witness `~inv(f)` makes the input/output equation
for `f` and the one for `inv(f)` interconvertible — `qu_to_app_eq`'s
biconditional, whose backward direction re-derives the original through
the involution `inv(inv(f)) == f`; without the witness only the former
`Inv` itself is available. -/
theorem qu_to_app_eq_biconditional :
    ∀ (App : Prop → Prop → Prop) (Inv : Prop → Prop) (Qu : Prop → Prop),
      (∀ F A B : Prop, Qu (Inv F) → EqP (App F A) B → EqP (App (Inv F) B) A) →
      (∀ F : Prop, Qu F → Qu (Inv F)) →
      (∀ F G X : Prop, EqP F G → EqP (App F X) (App G X)) →
      (∀ F : Prop, Inv (Inv F) → F) →
      (∀ F : Prop, F → Inv (Inv F)) →
      ∀ F A B : Prop, Qu (Inv F) →
        EqP (EqP (App F A) B) (EqP (App (Inv F) B) A) :=
  fun App Inv Qu ivq iq ame ii invi F A B x =>
    qu_to_app_eq App Inv Qu ivq iq ame ii invi F A B x

/-- C4 witness: the model interpreting application as its argument,
inverse as the identity and quality as trivially present satisfies the
five primitives, and the biconditional holds at `F = A = B = True`. -/
theorem qu_to_app_eq_biconditional_witness :
    (∀ F A B : Prop, trueF1 (idF1 F) → EqP (appArg F A) B → EqP (appArg (idF1 F) B) A) ∧
      (∀ F : Prop, trueF1 F → trueF1 (idF1 F)) ∧
      (∀ F G X : Prop, EqP F G → EqP (appArg F X) (appArg G X)) ∧
      (∀ F : Prop, idF1 (idF1 F) → F) ∧
      (∀ F : Prop, F → idF1 (idF1 F)) ∧
      EqP (EqP (appArg True True) True) (EqP (appArg (idF1 True) True) True) :=
  ⟨fun _ _ _ _ e => eq_symmetry e,
   fun _ h => h,
   fun _ _ _ _ => ⟨fun h => h, fun h => h⟩,
   fun _ h => h,
   fun _ h => h,
   qu_to_app_eq_biconditional appArg idF1 trueF1
     (fun _ _ _ _ e => eq_symmetry e)
     (fun _ h => h)
     (fun _ _ _ _ => ⟨fun h => h, fun h => h⟩)
     (fun _ h => h) (fun _ h => h) True True True True.intro⟩

/-- C5: in every interpretation validating the two involution directions
`inv_involve` and `involve_inv`, `involve_eq` unifies them through the
tautological-equality bridge into the propositional equality
`Inv<Inv<F>> == F`, for every `F`. -/
theorem inv_involution_eq :
    ∀ (Inv : Prop → Prop),
      (∀ F : Prop, Inv (Inv F) → F) →
      (∀ F : Prop, F → Inv (Inv F)) →
      ∀ F : Prop, EqP (Inv (Inv F)) F :=
  fun Inv ii invi F => involve_eq Inv ii invi F

/-- C5 witness: the identity interpretation of `Inv` satisfies both
directions, and the involution equality holds at `F = True`. -/
theorem inv_involution_eq_witness :
    (∀ F : Prop, idF1 (idF1 F) → F) ∧
      (∀ F : Prop, F → idF1 (idF1 F)) ∧
      EqP (idF1 (idF1 True)) True :=
  ⟨fun _ h => h, fun _ h => h,
   inv_involution_eq idF1 (fun _ h => h) (fun _ h => h) True⟩

/-- C6 counterexample: the claim's conjunct that each equivalence law —
reflexivity included — is derived from `fun_ext` and `fun_rev_ext` fails:
in the interpretation sending every `Pow` proposition to `False`, both
conversions and both tautological-equality operations hold, yet
`FunExtTy<F, F, X, Y, A>` is false at `F = X = Y = A = True`; so
reflexivity is not a consequence of the two conversions, and indeed the
source derives `fun_ext_refl` from `pow_transitivity`, `tup3_trd` and
`fun_ext_app_eq_refl` (with `fun_ext` itself consuming `fun_ext_refl`),
not from the conversions. -/
theorem fun_ext_refl_not_from_conversions :
    (∀ F G X Y A : Prop,
      TautoP falseF2 (EqP F G) →
        FunExtTy falseF2 falseF2 falseF2 falseF2 True falseF2 F G X Y A) ∧
      (∀ F G X Y A : Prop,
        FunExtTy falseF2 falseF2 falseF2 falseF2 True falseF2 F G X Y A →
          TautoP falseF2 (EqP F G)) ∧
      (∀ F G : Prop, TautoP falseF2 (EqP F G) → TautoP falseF2 (EqP G F)) ∧
      (∀ F G H : Prop,
        TautoP falseF2 (EqP F G) → TautoP falseF2 (EqP G H) →
          TautoP falseF2 (EqP F H)) ∧
      ¬ FunExtTy falseF2 falseF2 falseF2 falseF2 True falseF2 True True True True True :=
  ⟨fun _ _ _ _ _ h => h,
   fun _ _ _ _ _ h => h,
   fun _ _ h => h,
   fun _ _ _ h _ => h,
   fun h => h⟩

/-- C6 amended: in every interpretation providing the forward and backward
extensionality conversions (`fun_ext`, `fun_rev_ext`), the
tautological-equality operations, and the two tautological functions
`fun_ext_refl` composes (`tup3_trd` and `fun_ext_app_eq_refl`), function
extensionality behaves as an equivalence relation: `fun_ext_refl` yields
`FunExtTy<F, F, X, Y, A>` for every `F`, `fun_ext_symmetry` turns
`FunExtTy<F, G, …>` into `FunExtTy<G, F, …>`, and `fun_ext_transitivity`
combines `FunExtTy<F, G, …>` and `FunExtTy<G, H, …>` into
`FunExtTy<F, H, …>`; the symmetry and transitivity laws are derived from
the two conversions exactly as in the source, while reflexivity needs —
and the source uses — the three dependent-typing primitives. -/
theorem fun_ext_equivalence_laws :
    ∀ (Pow App Tup Lam : Prop → Prop → Prop) (Snd : Prop)
      (POrdP : Prop → Prop → Prop),
      (∀ F G X Y A : Prop,
        TautoP Pow (EqP F G) → FunExtTy Pow App Tup Lam Snd POrdP F G X Y A) →
      (∀ F G X Y A : Prop,
        FunExtTy Pow App Tup Lam Snd POrdP F G X Y A → TautoP Pow (EqP F G)) →
      (∀ F G : Prop, TautoP Pow (EqP F G) → TautoP Pow (EqP G F)) →
      (∀ F G H : Prop,
        TautoP Pow (EqP F G) → TautoP Pow (EqP G H) → TautoP Pow (EqP F H)) →
      (∀ A B C : Prop, Pow B A → Pow C B → Pow C A) →
      (∀ F G A X Y : Prop,
        Pow (Ty POrdP A X)
          (Ty POrdP (Tup3 Tup F G A) (Tup3 Tup (Pow Y X) (Pow Y X) X))) →
      (∀ F A X : Prop,
        Pow (App (FunExtAppEq App Lam Snd POrdP F F A X) (Tup3 Tup F F A))
          (Ty POrdP A X)) →
      ∀ F G H X Y A : Prop,
        FunExtTy Pow App Tup Lam Snd POrdP F F X Y A ∧
          (FunExtTy Pow App Tup Lam Snd POrdP F G X Y A →
            FunExtTy Pow App Tup Lam Snd POrdP G F X Y A) ∧
          (FunExtTy Pow App Tup Lam Snd POrdP F G X Y A →
            FunExtTy Pow App Tup Lam Snd POrdP G H X Y A →
            FunExtTy Pow App Tup Lam Snd POrdP F H X Y A) :=
  fun Pow App Tup Lam Snd POrdP fe fre tes tet pt t3 fear F G H X Y A =>
    ⟨fun_ext_refl Pow App Tup Lam Snd POrdP pt t3 fear F X Y A,
     fun x => fun_ext_symmetry Pow App Tup Lam Snd POrdP fe fre tes F G X Y A x,
     fun x y =>
       fun_ext_transitivity Pow App Tup Lam Snd POrdP fe fre tet F G H X Y A x y⟩

/-- C6 witness: the interpretation sending every former to `True`
satisfies all seven hypotheses, and the three laws hold at
`F = G = H = X = Y = A = True`. -/
theorem fun_ext_equivalence_laws_witness :
    (∀ F G X Y A : Prop,
      TautoP trueF2 (EqP F G) → FunExtTy trueF2 trueF2 trueF2 trueF2 True trueF2 F G X Y A) ∧
      (∀ F G X Y A : Prop,
        FunExtTy trueF2 trueF2 trueF2 trueF2 True trueF2 F G X Y A →
          TautoP trueF2 (EqP F G)) ∧
      (∀ A B C : Prop, trueF2 B A → trueF2 C B → trueF2 C A) ∧
      (FunExtTy trueF2 trueF2 trueF2 trueF2 True trueF2 True True True True True ∧
        (FunExtTy trueF2 trueF2 trueF2 trueF2 True trueF2 True True True True True →
          FunExtTy trueF2 trueF2 trueF2 trueF2 True trueF2 True True True True True) ∧
        (FunExtTy trueF2 trueF2 trueF2 trueF2 True trueF2 True True True True True →
          FunExtTy trueF2 trueF2 trueF2 trueF2 True trueF2 True True True True True →
          FunExtTy trueF2 trueF2 trueF2 trueF2 True trueF2 True True True True True)) :=
  ⟨fun _ _ _ _ _ _ => True.intro,
   fun _ _ _ _ _ _ => True.intro,
   fun _ _ _ _ _ => True.intro,
   fun_ext_equivalence_laws trueF2 trueF2 trueF2 trueF2 True trueF2
     (fun _ _ _ _ _ _ => True.intro)
     (fun _ _ _ _ _ _ => True.intro)
     (fun _ _ _ => True.intro)
     (fun _ _ _ _ _ => True.intro)
     (fun _ _ _ _ _ => True.intro)
     (fun _ _ _ _ _ => True.intro)
     (fun _ _ _ => True.intro)
     True True True True True True⟩

/-- C7: in every interpretation validating composition associativity and
the inverse-contravariance primitives, normalization composes: conjugating
twice equals conjugating once by the composed coordinate maps, both for
the general `Norm1` form and for the symmetric `SymNorm1<SymNorm1<F, G1>,
G2> == SymNorm1<F, Comp<G2, G1>>` instance — in particular at the
identity function. -/
theorem norm1_conjugation_composes :
    ∀ (Inv : Prop → Prop),
      (∀ F G H : Prop, EqP (CompP H (CompP G F)) (CompP (CompP H G) F)) →
      (∀ F G : Prop, CompP (Inv F) (Inv G) → Inv (CompP G F)) →
      (∀ F G : Prop, Inv (CompP G F) → CompP (Inv F) (Inv G)) →
      ∀ F G1 G2 G3 G4 : Prop,
        EqP (Norm1 Inv (Norm1 Inv F G1 G2) G3 G4)
            (Norm1 Inv F (CompP G3 G1) (CompP G4 G2)) ∧
          EqP (SymNorm1 Inv (SymNorm1 Inv F G1) G2)
            (SymNorm1 Inv F (CompP G2 G1)) :=
  fun Inv ca c1 c2 F G1 G2 G3 G4 =>
    ⟨norm1_comp Inv ca c1 c2 F G1 G2 G3 G4,
     sym_norm1_comp Inv ca c1 c2 F G1 G2⟩

/-- C7 witness: the trivial interpretation of `Inv` satisfies the three
primitives (associativity holds outright for the concrete `Comp`
structure), and both equalities hold at `F = G1 = … = G4 = True`. -/
theorem norm1_conjugation_composes_witness :
    (∀ F G H : Prop, EqP (CompP H (CompP G F)) (CompP (CompP H G) F)) ∧
      (∀ F G : Prop, CompP (trueF1 F) (trueF1 G) → trueF1 (CompP G F)) ∧
      (∀ F G : Prop, trueF1 (CompP G F) → CompP (trueF1 F) (trueF1 G)) ∧
      (EqP (Norm1 trueF1 (Norm1 trueF1 True True True) True True)
          (Norm1 trueF1 True (CompP True True) (CompP True True)) ∧
        EqP (SymNorm1 trueF1 (SymNorm1 trueF1 True True) True)
          (SymNorm1 trueF1 True (CompP True True))) :=
  ⟨fun _ _ _ =>
      ⟨fun x => ⟨⟨x.fst, x.snd.fst⟩, x.snd.snd⟩,
       fun x => ⟨x.fst.fst, ⟨x.fst.snd, x.snd⟩⟩⟩,
   fun _ _ _ => True.intro,
   fun _ _ _ => ⟨True.intro, True.intro⟩,
   norm1_conjugation_composes trueF1
     (fun _ _ _ =>
       ⟨fun x => ⟨⟨x.fst, x.snd.fst⟩, x.snd.snd⟩,
        fun x => ⟨x.fst.fst, ⟨x.fst.snd, x.snd⟩⟩⟩)
     (fun _ _ _ => True.intro)
     (fun _ _ _ => ⟨True.intro, True.intro⟩)
     True True True True True⟩
